import Mathlib

/-!
# Echo signaling server — shallow embedding

This file embeds the socket-event handlers and HTTP routes of the Echo
real-time chat/call server (`server/src/index.ts`) as pure Lean functions
over an explicit `ServerState`, and proves or refutes the specified
properties of the room tracker, message relay, call orchestrator, call
log, rate limiter and HTTP surface.

Conventions of the embedding:
* JavaScript `Map<string, V>` becomes an association list
  `List (String × V)` with `mget` / `mset` / `mdel` mirroring
  `Map.get` / `Map.set` / `Map.delete` (set replaces in place, inserts
  at the end; keys stay unique when starting from the empty map).
* JavaScript `Set<string>` becomes a duplicate-free `List String` with
  `setInsert` (append if absent) and `List.erase`.
* `Date.now()` is passed in explicitly as an `Int` parameter `now`.
* String truthiness (`if (s)`) is an explicit `s ≠ ""` test; optional
  fields are `Option`, with `none` standing for `undefined`/absent and
  nullable values spelled out where the source distinguishes them.
* Each socket handler returns a `HandlerOut`: the updated state, the
  list of emissions handed to socket.io, and the durations of any
  `setTimeout` timers the handler schedules.  No handler in the source
  calls `setTimeout`, so every handler returns an empty timer list.
* Redis is disabled in the default configuration (`REDIS_URL` is empty,
  so `redis` is `null`); every `if (redis)` block is a no-op and is
  omitted.  MongoDB availability and the outcome of `Message.create`
  are inputs (`MsgEnv`) to the message handler.
-/

/-- `Map.get`: first (and only) binding of a key in an association list. -/
def mget {α : Type} : List (String × α) → String → Option α
  | [], _ => none
  | p :: t, k => if p.1 = k then some p.2 else mget t k

/-- `Map.set`: replace the binding of `k` in place, or append it. -/
def mset {α : Type} : List (String × α) → String → α → List (String × α)
  | [], k, v => [(k, v)]
  | p :: t, k, v => if p.1 = k then (k, v) :: t else p :: mset t k v

/-- `Map.delete`: remove the binding of `k` (at most one exists). -/
def mdel {α : Type} : List (String × α) → String → List (String × α)
  | [], _ => []
  | p :: t, k => if p.1 = k then t else p :: mdel t k

/-- `Set.add`: append the element if it is not already present. -/
def setInsert (l : List String) (x : String) : List String :=
  if x ∈ l then l else l ++ [x]

/-- Truthiness of an optional string (`undefined`, `null` and `""` are falsy). -/
def otruthy : Option String → Bool
  | none => false
  | some s => decide (s ≠ "")

/-- Truthiness of an optional timestamp (`undefined` and `0` are falsy),
for the `!log.endedAt` guard. -/
def timeFalsy : Option Int → Bool
  | none => true
  | some v => decide (v = 0)

/-- `type User = { id: string; name: string; userId?: string }`. -/
structure User where
  id : String
  name : String
  userId : Option String
deriving DecidableEq, Repr

/-- `type CallType = 'audio' | 'video'`. -/
inductive CallType
  | audio
  | video
deriving DecidableEq, Repr

/-- `type CallState = { room; type; participants; startedAt; initiator }`. -/
structure CallState where
  room : Option String
  type : CallType
  participants : List String
  startedAt : Int
  initiator : String
deriving DecidableEq, Repr

/-- One entry of `__callLogs`. -/
structure CallLog where
  callId : String
  room : Option String
  type : CallType
  startedAt : Int
  endedAt : Option Int
  initiator : String
  participants : List String
deriving DecidableEq, Repr

/-- One entry of the in-memory chat message fallback `inMemMessages`. -/
structure InMsg where
  name : String
  text : String
  ts : Int
  room : Option String
deriving DecidableEq, Repr

/-- `rateMap` values: `{ count: number; ts: number }`. -/
structure RateEntry where
  count : Nat
  ts : Int
deriving DecidableEq, Repr

/-- The server's mutable in-process state: the module-level maps of
`index.ts` plus the `__activeCalls` / `__callLogs` fields stored on the
socket.io server object, plus the socket.io adapter's room membership
(socket id ↦ list of named rooms the socket has joined). -/
structure ServerState where
  users : List (String × User)
  userRooms : List (String × Option String)
  adapterRooms : List (String × List String)
  inMemMessages : List InMsg
  rateMap : List (String × RateEntry)
  onlineUserIds : List String
  activeCalls : List (String × CallState)
  callLogs : List CallLog
deriving DecidableEq, Repr

/-- The state at process start: every map empty. -/
def initState : ServerState :=
  { users := [], userRooms := [], adapterRooms := [], inMemMessages := [],
    rateMap := [], onlineUserIds := [], activeCalls := [], callLogs := [] }

/-- Addressing of an emission, mirroring the socket.io calls used.
socket.io treats a socket id as a room containing just that socket, so
`io.to(x).emit` is `Target.room x` whether `x` is a named room or a
socket id, and `socket.to(x).emit` (which excludes the sender) is
`Target.roomExcept sender x`. -/
inductive Target
  | room (name : String)
  | roomExcept (sender name : String)
  | allExcept (sender : String)
  | all
deriving DecidableEq, Repr

/-- Event payloads, one constructor per payload shape emitted by the
handlers embedded here. -/
inductive Payload
  | userJoin (id name : String)
  | userLeave (id name : String)
  | users (l : List User)
  | roomJoin (id : String) (name : Option String) (room : String)
  | roomLeave (id : String) (name : Option String) (room : String)
  | usersInRoom (l : List User)
  | msg (id name text : String) (ts : Int) (room : Option String)
  | offer (sender : String) (sdp : String) (media : Option CallType)
      (callId : Option String)
  | busy (sender : String)
  | ended (sender : String)
  | invite (callId : String) (type : CallType) (sender : String)
      (fromName : Option String)
  | participants (callId : String) (l : List String)
  | endAll (callId : String)
deriving DecidableEq, Repr

/-- One `emit` call handed to socket.io. -/
structure Emit where
  target : Target
  event : String
  payload : Payload
deriving DecidableEq, Repr

/-- A socket handler's observable result: the new server state, the
emissions performed, and the durations (ms) of any `setTimeout` timers
scheduled.  No handler in `index.ts` schedules a timer. -/
structure HandlerOut where
  state : ServerState
  emits : List Emit
  timers : List Nat
deriving DecidableEq, Repr

/-- `rateLimit(key, limit = 60, windowMs = 60_000)` over an explicit map
and clock:

```
const cur = rateMap.get(key)
if (!cur || now - cur.ts > windowMs) { rateMap.set(key, { count: 1, ts: now }); return true }
if (cur.count >= limit) return false
cur.count++
return true
``` -/
def rateLimit (rm : List (String × RateEntry)) (key : String) (limit : Nat)
    (windowMs : Int) (now : Int) : Bool × List (String × RateEntry) :=
  match mget rm key with
  | none => (true, mset rm key ⟨1, now⟩)
  | some cur =>
    if windowMs < now - cur.ts then (true, mset rm key ⟨1, now⟩)
    else if limit ≤ cur.count then (false, rm)
    else (true, mset rm key ⟨cur.count + 1, cur.ts⟩)

/-- Run `rateLimit` for one key over a list of call times, collecting the
returned booleans and threading the map. -/
def runRate (rm : List (String × RateEntry)) (key : String) (limit : Nat)
    (windowMs : Int) : List Int → List Bool × List (String × RateEntry)
  | [] => ([], rm)
  | t :: ts =>
    let r := rateLimit rm key limit windowMs t
    let rest := runRate r.2 key limit windowMs ts
    (r.1 :: rest.1, rest.2)

/-- Payload of the `join` event: either a bare string (the name) or an
object `{ name?, userId? }`. -/
inductive JoinPayload
  | str (s : String)
  | obj (name : Option String) (userId : Option String)
deriving DecidableEq, Repr

/-- The `join` handler: registers the socket's identity, resets its
tracked room to `null`, broadcasts `user:join` and the full user list,
and records the external user id as online when present and truthy. -/
def handleJoin (st : ServerState) (s : String) (p : JoinPayload) : HandlerOut :=
  let nu : String × Option String :=
    match p with
    | .str n => (n, none)
    | .obj n u =>
      ((match n with
        | some nm => if nm = "" then "Anonymous" else nm
        | none => "Anonymous"), u)
  let users' := mset st.users s ⟨s, nu.1, nu.2⟩
  let online' :=
    match nu.2 with
    | some uid => if uid = "" then st.onlineUserIds else setInsert st.onlineUserIds uid
    | none => st.onlineUserIds
  { state := { st with
               users := users'
               userRooms := mset st.userRooms s none
               onlineUserIds := online' },
    emits := [⟨.allExcept s, "user:join", .userJoin s nu.1⟩,
              ⟨.all, "users", .users (users'.map (·.2))⟩],
    timers := [] }

/-- Socket ids currently in adapter room `r`
(`io.sockets.adapter.rooms.get(room)`). -/
def roomSockets (st : ServerState) (r : String) : List String :=
  (st.adapterRooms.filter (fun p => r ∈ p.2)).map (·.1)

/-- `sockets.map((id) => users.get(id)).filter(Boolean)`. -/
def usersOfSockets (st : ServerState) (ids : List String) : List User :=
  ids.filterMap (fun id => mget st.users id)

/-- `socket.join(room)` on the adapter: add `room` to the socket's room
set if absent. -/
def adapterJoin (m : List (String × List String)) (s r : String) :
    List (String × List String) :=
  let l := (mget m s).getD []
  if r ∈ l then m else mset m s (l ++ [r])

/-- `socket.leave(room)` on the adapter. -/
def adapterLeave (m : List (String × List String)) (s r : String) :
    List (String × List String) :=
  match mget m s with
  | none => m
  | some l => mset m s (l.erase r)

/-- The `joinRoom` handler: leave the previously tracked room (if
truthy), then — if the requested room is truthy — join it, record it,
and notify the room (`room:join` then the fresh `usersInRoom` roster);
otherwise just record `null`. -/
def handleJoinRoom (st : ServerState) (s : String) (room : Option String) :
    HandlerOut :=
  let prev : Option String := (mget st.userRooms s).getD none
  let st1 :=
    match prev with
    | some pr => if pr = "" then st
                 else { st with adapterRooms := adapterLeave st.adapterRooms s pr }
    | none => st
  match room with
  | some r =>
    if r = "" then
      ⟨{ st1 with userRooms := mset st1.userRooms s none }, [], []⟩
    else
      let st2 := { st1 with
                   adapterRooms := adapterJoin st1.adapterRooms s r
                   userRooms := mset st1.userRooms s (some r) }
      let roster := usersOfSockets st2 (roomSockets st2 r)
      ⟨st2,
       [⟨.room r, "room:join", .roomJoin s ((mget st2.users s).map (·.name)) r⟩,
        ⟨.room r, "usersInRoom", .usersInRoom roster⟩],
       []⟩
  | none => ⟨{ st1 with userRooms := mset st1.userRooms s none }, [], []⟩

/-- The `leaveRoom` handler: if a truthy room is tracked, leave it,
record `null`, and notify the old room (`room:leave` then the roster
computed after leaving). -/
def handleLeaveRoom (st : ServerState) (s : String) : HandlerOut :=
  let prev : Option String := (mget st.userRooms s).getD none
  match prev with
  | some pr =>
    if pr = "" then ⟨st, [], []⟩
    else
      let st1 := { st with
                   adapterRooms := adapterLeave st.adapterRooms s pr
                   userRooms := mset st.userRooms s none }
      let roster := usersOfSockets st1 (roomSockets st1 pr)
      ⟨st1,
       [⟨.room pr, "room:leave", .roomLeave s ((mget st1.users s).map (·.name)) pr⟩,
        ⟨.room pr, "usersInRoom", .usersInRoom roster⟩],
       []⟩
  | none => ⟨st, [], []⟩

/-- Input of the `message` event: `{ text: string; room?: string | null }`.
`room = none` is an absent field, `room = some none` an explicit `null`. -/
structure MsgIn where
  text : String
  room : Option (Option String)
deriving DecidableEq, Repr

/-- Environment of the message handler: whether MongoDB is connected and
whether `Message.create` succeeds when attempted. -/
structure MsgEnv where
  mongoConnected : Bool
  createOk : Bool
deriving DecidableEq, Repr

/-- Cap the in-memory message buffer to the last 500 entries
(`inMemMessages.splice(0, inMemMessages.length - 500)`). -/
def capMessages (l : List InMsg) : List InMsg :=
  if 500 < l.length then l.drop (l.length - 500) else l

/-- The persistence attempt inside the message handler's `try` block:
with MongoDB connected it is an external write that may reject
(`env.createOk = false`); otherwise the message is appended to the
capped in-memory buffer, which cannot fail. -/
def persistStep (st : ServerState) (env : MsgEnv) (entry : InMsg) :
    Except String ServerState :=
  if env.mongoConnected then
    if env.createOk then .ok st else .error "Failed to save message"
  else
    .ok { st with inMemMessages := capMessages (st.inMemMessages ++ [entry]) }

/-- Delivery addressing of a chat payload: `if (room) io.to(room).emit
else io.emit` (an empty-string room is falsy). -/
def deliverTarget : Option String → Target
  | some r => if r = "" then .all else .room r
  | none => .all

/-- The effective room of a message:
`msg.room ?? userRooms.get(socket.id) ?? null`. -/
def effRoom (st : ServerState) (s : String) (msg : MsgIn) : Option String :=
  match msg.room with
  | some (some r) => some r
  | _ => (mget st.userRooms s).getD none

/-- The `message` handler: resolve the sender (defaulting to an
anonymous identity when the socket never registered), build the
payload, attempt persistence inside `try`/`catch` (a failure is logged
and swallowed), then deliver to the room or to everyone. -/
def handleMessage (st : ServerState) (s : String) (msg : MsgIn) (env : MsgEnv)
    (now : Int) : HandlerOut :=
  let user := (mget st.users s).getD ⟨s, "Anonymous", none⟩
  let room := effRoom st s msg
  let st1 :=
    match persistStep st env ⟨user.name, msg.text, now, room⟩ with
    | .ok st' => st'
    | .error _ => st
  { state := st1,
    emits := [⟨deliverTarget room, "message", .msg s user.name msg.text now room⟩],
    timers := [] }

/-- The `disconnect` handler: drop the socket from the user registry,
broadcast `user:leave` when it was registered, re-broadcast the user
list, and drop a truthy external user id from the online set.  It does
not touch `userRooms`, `adapterRooms`, `activeCalls` or `callLogs`. -/
def handleDisconnect (st : ServerState) (s : String) : HandlerOut :=
  let user := mget st.users s
  let users' := mdel st.users s
  let online' :=
    match user with
    | some u =>
      match u.userId with
      | some uid => if uid = "" then st.onlineUserIds else st.onlineUserIds.erase uid
      | none => st.onlineUserIds
    | none => st.onlineUserIds
  { state := { st with users := users', onlineUserIds := online' },
    emits := (match user with
              | some u => [⟨.allExcept s, "user:leave", .userLeave s u.name⟩]
              | none => []) ++ [⟨.all, "users", .users (users'.map (·.2))⟩],
    timers := [] }

/-- Payload of `webrtc:offer` (`toId` embeds the source's `to` field,
which is a reserved word in Lean). -/
structure OfferPayload where
  toId : Option String
  sdp : String
  media : Option CallType
  callId : Option String
deriving DecidableEq, Repr

/-- The `webrtc:offer` handler: relay the offer verbatim to the
addressed peer when `to` is truthy; otherwise do nothing.  No state is
read or written. -/
def handleWebrtcOffer (st : ServerState) (s : String) (p : OfferPayload) :
    HandlerOut :=
  { state := st,
    emits :=
      match p.toId with
      | some t =>
        if t = "" then []
        else [⟨.room t, "webrtc:offer", .offer s p.sdp p.media p.callId⟩]
      | none => [],
    timers := [] }

/-- The `call:busy` handler: relay a client-sent busy signal to the
addressed peer when `to` is truthy. -/
def handleCallBusy (st : ServerState) (s : String) (toId : Option String) :
    HandlerOut :=
  { state := st,
    emits :=
      match toId with
      | some t => if t = "" then [] else [⟨.room t, "call:busy", .busy s⟩]
      | none => [],
    timers := [] }

/-- Payload of `call:invite`:
`{ callId: string; room: string | null; type: CallType; to?: string }`
(`toId` embeds the source's `to`). -/
structure InvitePayload where
  callId : String
  room : Option String
  type : CallType
  toId : Option String
deriving DecidableEq, Repr

/-- The `call:invite` handler: create the call record and push an open
log entry if the `callId` is new; then notify a truthy direct target,
else a truthy room, else broadcast.  The direct-target branch returns
without touching the room branch. -/
def handleCallInvite (st : ServerState) (s : String) (p : InvitePayload)
    (now : Int) : HandlerOut :=
  let st' :=
    if (mget st.activeCalls p.callId).isSome then st
    else { st with
           activeCalls := mset st.activeCalls p.callId
             ⟨p.room, p.type, [], now, s⟩
           callLogs := st.callLogs ++
             [⟨p.callId, p.room, p.type, now, none, s, []⟩] }
  let fromName := (mget st.users s).map (·.name)
  let inviteMsg := Payload.invite p.callId p.type s fromName
  let emits :=
    match p.toId with
    | some t =>
      if t = "" then
        match p.room with
        | some r => if r = "" then [⟨.allExcept s, "call:invite", inviteMsg⟩]
                    else [⟨.roomExcept s r, "call:invite", inviteMsg⟩]
        | none => [⟨.allExcept s, "call:invite", inviteMsg⟩]
      else [⟨.roomExcept s t, "call:invite", inviteMsg⟩]
    | none =>
      match p.room with
      | some r => if r = "" then [⟨.allExcept s, "call:invite", inviteMsg⟩]
                  else [⟨.roomExcept s r, "call:invite", inviteMsg⟩]
      | none => [⟨.allExcept s, "call:invite", inviteMsg⟩]
  ⟨st', emits, []⟩

/-- `__callLogs.find(l => l.callId === callId)` followed by an in-place
mutation: apply `f` to the first entry with the given id. -/
def updateFirstLog : List CallLog → String → (CallLog → CallLog) → List CallLog
  | [], _, _ => []
  | l :: t, cid, f =>
    if l.callId = cid then f l :: t else l :: updateFirstLog t cid f

/-- `if (log && !log.endedAt) log.endedAt = Date.now()`. -/
def finalizeLog (logs : List CallLog) (cid : String) (now : Int) : List CallLog :=
  updateFirstLog logs cid
    (fun l => if timeFalsy l.endedAt then { l with endedAt := some now } else l)

/-- The `call:participants` notification sent after a join/leave: to the
call's room when truthy, otherwise to everyone. -/
def participantsEmit (room : Option String) (cid : String)
    (list : List String) : Emit :=
  match room with
  | some r =>
    if r = "" then ⟨.all, "call:participants", .participants cid list⟩
    else ⟨.room r, "call:participants", .participants cid list⟩
  | none => ⟨.all, "call:participants", .participants cid list⟩

/-- The `call:join` handler: ignore unknown call ids; otherwise add the
socket to the session's participant set and to the first matching log
entry's participant list, then broadcast the updated participant ids. -/
def handleCallJoin (st : ServerState) (s : String) (cid : String) : HandlerOut :=
  match mget st.activeCalls cid with
  | none => ⟨st, [], []⟩
  | some cs =>
    let cs' := { cs with participants := setInsert cs.participants s }
    let st1 := { st with
                 activeCalls := mset st.activeCalls cid cs'
                 callLogs := updateFirstLog st.callLogs cid
                   (fun l => { l with participants := setInsert l.participants s }) }
    ⟨st1, [participantsEmit cs.room cid cs'.participants], []⟩

/-- The `call:leave` handler: ignore unknown call ids; otherwise remove
the socket from the participant set and broadcast the updated list; if
the set became empty, stamp the first matching log entry's `endedAt`
(when still unset) and drop the session from the active set. -/
def handleCallLeave (st : ServerState) (s : String) (cid : String)
    (now : Int) : HandlerOut :=
  match mget st.activeCalls cid with
  | none => ⟨st, [], []⟩
  | some cs =>
    let cs' := { cs with participants := cs.participants.erase s }
    let emits := [participantsEmit cs.room cid cs'.participants]
    if cs'.participants.isEmpty then
      ⟨{ st with
         activeCalls := mdel st.activeCalls cid
         callLogs := finalizeLog st.callLogs cid now }, emits, []⟩
    else
      ⟨{ st with activeCalls := mset st.activeCalls cid cs' }, emits, []⟩

/-- The `call:endAll` handler: ignore unknown call ids; otherwise send
`webrtc:end` to every participant, announce `call:endAll` to the call's
scope, stamp the log entry's `endedAt` (when still unset) and drop the
session. -/
def handleCallEndAll (st : ServerState) (s : String) (cid : String)
    (now : Int) : HandlerOut :=
  match mget st.activeCalls cid with
  | none => ⟨st, [], []⟩
  | some cs =>
    let endEmits := cs.participants.map
      (fun pid => (⟨.room pid, "webrtc:end", .ended s⟩ : Emit))
    let announce : Emit :=
      match cs.room with
      | some r =>
        if r = "" then ⟨.all, "call:endAll", .endAll cid⟩
        else ⟨.room r, "call:endAll", .endAll cid⟩
      | none => ⟨.all, "call:endAll", .endAll cid⟩
    ⟨{ st with
       activeCalls := mdel st.activeCalls cid
       callLogs := finalizeLog st.callLogs cid now },
     endEmits ++ [announce], []⟩

/-- Response of `GET /calls`. -/
structure CallsResponse where
  status : Nat
  logs : List CallLog
deriving DecidableEq, Repr

/-- The `GET /calls` route.  It is registered without the
`requireAuth()` middleware and never reads the request, so the
`authorization` header is ignored and the whole in-memory call log is
returned with status 200. -/
def getCallsRoute (st : ServerState) (authorization : Option String) :
    CallsResponse :=
  { status := 200, logs := st.callLogs }

/-- Booleans produced by `n` further in-window calls of the rate
limiter when the stored counter is at `cnt`: `true` while
`cnt < limit`, `false` afterwards. -/
def tailBools (limit : Nat) : Nat → Nat → List Bool
  | _, 0 => []
  | cnt, n + 1 => decide (cnt < limit) :: tailBools limit (cnt + 1) n

/-- Pairwise-distinct call ids (distinct lengths) for the log-growth
experiment: `"c"`, `"cc"`, `"ccc"`, … -/
def idOf (n : Nat) : String := String.mk (List.replicate (n + 1) 'c')

/-- Server state after `n` direct 1:1 invites with the pairwise
distinct call ids `idOf 0 … idOf (n-1)`. -/
def inviteN : Nat → ServerState
  | 0 => initState
  | n + 1 =>
    (handleCallInvite (inviteN n) "A" ⟨idOf n, none, .video, some "B"⟩ 0).state

/-- A room-tracker request: one `joinRoom` or `leaveRoom` event. -/
inductive RoomOp
  | joinR (s : String) (room : Option String)
  | leaveR (s : String)
deriving DecidableEq, Repr

/-- Apply one room-tracker request to the server state. -/
def applyRoomOp (st : ServerState) : RoomOp → ServerState
  | .joinR s r => (handleJoinRoom st s r).state
  | .leaveR s => (handleLeaveRoom st s).state

/-- Apply a sequence of room-tracker requests, left to right. -/
def applyRoomOps (st : ServerState) : List RoomOp → ServerState
  | [] => st
  | op :: ops => applyRoomOps (applyRoomOp st op) ops

/-- The named rooms a socket currently belongs to in the adapter. -/
def roomsOf (st : ServerState) (s : String) : List String :=
  (mget st.adapterRooms s).getD []

/-- The room tracked for a socket in `userRooms`
(`userRooms.get(socket.id) ?? null`). -/
def trackedRoom (st : ServerState) (s : String) : Option String :=
  (mget st.userRooms s).getD none

/-- Consistency invariant of the room tracker: every socket's adapter
membership is exactly its tracked room (hence has at most one
element), and the tracked room is never the falsy empty string. -/
def RoomConsistent (st : ServerState) : Prop :=
  ∀ s, roomsOf st s = (trackedRoom st s).toList ∧ trackedRoom st s ≠ some ""

/-! ## Basic association-list lemmas -/

theorem mget_mset {α : Type} (m : List (String × α)) (k : String) (v : α)
    (k' : String) :
    mget (mset m k v) k' = if k' = k then some v else mget m k' := by
  induction m with
  | nil =>
    by_cases h : k' = k
    · subst h; simp [mset, mget]
    · have h2 : ¬ k = k' := fun hh => h hh.symm
      simp [mset, mget, h, h2]
  | cons p t ih =>
    by_cases hp : p.1 = k
    · by_cases h : k' = k
      · subst h; simp [mset, mget, hp]
      · have h2 : ¬ k = k' := fun hh => h hh.symm
        simp [mset, mget, hp, h, h2]
    · by_cases hpk' : p.1 = k'
      · have h : ¬ k' = k := fun hh => hp (hpk'.trans hh)
        simp [mset, mget, hp, hpk', h]
      · simp [mset, mget, hp, hpk', ih]

theorem mget_mset_self {α : Type} (m : List (String × α)) (k : String) (v : α) :
    mget (mset m k v) k = some v := by
  simp [mget_mset]

/-! ## C6 — rate limiter window behaviour -/

theorem tailBools_eq_replicate (limit : Nat) :
    ∀ (n cnt : Nat), tailBools limit cnt n
      = List.replicate (min (limit - cnt) n) true ++
        List.replicate (n - (limit - cnt)) false := by
  intro n
  induction n with
  | zero => intro cnt; simp [tailBools]
  | succ n ih =>
    intro cnt
    by_cases h : cnt < limit
    · have h1 : limit - cnt = (limit - (cnt + 1)) + 1 := by omega
      have h2 : min (limit - cnt) (n + 1) = min (limit - (cnt + 1)) n + 1 := by
        omega
      have h3 : (n + 1) - (limit - cnt) = n - (limit - (cnt + 1)) := by omega
      simp only [tailBools, ih (cnt + 1), h2, h3, decide_eq_true_eq]
      rw [List.replicate_succ]
      simp [h]
    · have h1 : limit - cnt = 0 := by omega
      have h2 : limit - (cnt + 1) = 0 := by omega
      simp only [tailBools, ih (cnt + 1), h1, h2, decide_eq_true_eq]
      simp [h, List.replicate_succ]

theorem runRate_in_window (key : String) (limit : Nat) (windowMs : Int)
    (ts : List Int) :
    ∀ (rm : List (String × RateEntry)) (cnt : Nat) (t0 : Int),
    mget rm key = some ⟨cnt, t0⟩ → (∀ t ∈ ts, t ≤ t0 + windowMs) →
    (runRate rm key limit windowMs ts).1 = tailBools limit cnt ts.length := by
  induction ts with
  | nil => intro rm cnt t0 _ _; simp [runRate, tailBools]
  | cons t ts ih =>
    intro rm cnt t0 h hw
    have ht : t ≤ t0 + windowMs := hw t (List.mem_cons_self _ _)
    have hw' : ∀ x ∈ ts, x ≤ t0 + windowMs :=
      fun x hx => hw x (List.mem_cons_of_mem _ hx)
    have hnw : ¬ (windowMs < t - t0) := by omega
    by_cases hc : limit ≤ cnt
    · have hres : rateLimit rm key limit windowMs t = (false, rm) := by
        simp [rateLimit, h, hnw, hc]
      have hd : ¬ (cnt < limit) := by omega
      simp only [runRate, hres, tailBools, List.length_cons]
      rw [ih rm cnt t0 h hw']
      have : tailBools limit (cnt + 1) ts.length
          = tailBools limit cnt ts.length := by
        rw [tailBools_eq_replicate, tailBools_eq_replicate]
        have e1 : limit - (cnt + 1) = 0 := by omega
        have e2 : limit - cnt = 0 := by omega
        rw [e1, e2]
      rw [this]
      simp [hd]
    · have hlt : cnt < limit := by omega
      have hres : rateLimit rm key limit windowMs t
          = (true, mset rm key ⟨cnt + 1, t0⟩) := by
        simp [rateLimit, h, hnw, hc]
      simp only [runRate, hres, tailBools, List.length_cons]
      rw [ih (mset rm key ⟨cnt + 1, t0⟩) (cnt + 1) t0 (mget_mset_self _ _ _) hw']
      simp [hlt]

/-- C6 (amended, for `limit ≥ 1`): `rateLimit` is a fixed-window counter
per key.  Starting from a state without the key, for any sequence of
call times that stay within `windowMs` of the first call, exactly the
first `limit` calls return `true` and every further call returns
`false`; and whenever a call arrives strictly more than `windowMs`
after the stored window start, it returns `true` and begins a fresh
window with count 1. -/
theorem rateLimit_fixed_window (key : String) (limit : Nat) (windowMs : Int)
    (hl : 1 ≤ limit) :
    (∀ (rm : List (String × RateEntry)) (t0 : Int) (ts : List Int),
      mget rm key = none → (∀ t ∈ ts, t ≤ t0 + windowMs) →
      (runRate rm key limit windowMs (t0 :: ts)).1
        = List.replicate (min limit (ts.length + 1)) true ++
          List.replicate ((ts.length + 1) - limit) false)
    ∧ (∀ (rm : List (String × RateEntry)) (cur : RateEntry) (now : Int),
      mget rm key = some cur → windowMs < now - cur.ts →
      rateLimit rm key limit windowMs now = (true, mset rm key ⟨1, now⟩)) := by
  constructor
  · intro rm t0 ts h hw
    have hres : rateLimit rm key limit windowMs t0
        = (true, mset rm key ⟨1, t0⟩) := by
      simp [rateLimit, h]
    simp only [runRate, hres]
    rw [runRate_in_window key limit windowMs ts _ 1 t0 (mget_mset_self _ _ _) hw]
    rw [tailBools_eq_replicate]
    have e1 : min limit (ts.length + 1) = min (limit - 1) ts.length + 1 := by
      omega
    have e2 : (ts.length + 1) - limit = ts.length - (limit - 1) := by omega
    rw [e1, e2, List.replicate_succ]
    simp

  · intro rm cur now h hw
    simp [rateLimit, h, hw]

/-- C6 witness: with `limit = 2`, `windowMs = 10`, calls at times
0, 3, 5, 7 give `[true, true, false, false]`, and a call at time 20
against a full window started at 0 resets and returns `true`. -/
theorem rateLimit_fixed_window_witness :
    (runRate [] "k" 2 10 [0, 3, 5, 7]).1
      = List.replicate (min 2 4) true ++ List.replicate (4 - 2) false
    ∧ rateLimit [("k", ⟨2, 0⟩)] "k" 2 10 20
      = (true, mset [("k", ⟨2, 0⟩)] "k" ⟨1, 20⟩) := by
  refine ⟨?_, ?_⟩
  · exact (rateLimit_fixed_window "k" 2 10 (by decide)).1 [] 0 [3, 5, 7]
      rfl (by decide)
  · exact (rateLimit_fixed_window "k" 2 10 (by decide)).2 [("k", ⟨2, 0⟩)]
      ⟨2, 0⟩ 20 rfl (by decide)

/-- C6 counterexample: the claim fails at `limit = 0`.  It asserts that
exactly the first `limit` calls in a window return `true`, i.e. with
`limit = 0` no call may return `true`; but the very first call takes
the `!cur` reset branch, which returns `true` without consulting
`limit`. -/
theorem rateLimit_limit_zero_counterexample :
    ¬ ((runRate [] "k" 0 10 [0]).1
        = List.replicate (min 0 1) true ++ List.replicate (1 - 0) false) := by
  decide

/-- C7: chat delivery is independent of the persistence attempt.  The
emissions of the `message` handler are identical for every persistence
environment — MongoDB up with `Message.create` succeeding, MongoDB up
with `Message.create` rejecting (the `catch` swallows it), or MongoDB
down (in-memory fallback) — and always consist of exactly the one
`message` delivery to the effective room (or to everyone when it is
null); no error emission of any kind is produced. -/
theorem message_delivery_unaffected_by_store (st : ServerState) (s : String)
    (msg : MsgIn) (env env' : MsgEnv) (now : Int) :
    (handleMessage st s msg env now).emits = (handleMessage st s msg env' now).emits
    ∧ (handleMessage st s msg env now).emits
      = [⟨deliverTarget (effRoom st s msg), "message",
          .msg s ((mget st.users s).getD ⟨s, "Anonymous", none⟩).name
            msg.text now (effRoom st s msg)⟩] :=
  ⟨rfl, rfl⟩

/-- C10: a `message` from a socket that never registered via `join` is
not rejected: it is delivered normally, with the display name
defaulting to "Anonymous" and the sender's connection id attached. -/
theorem unregistered_sender_message_delivered (st : ServerState) (s : String)
    (msg : MsgIn) (env : MsgEnv) (now : Int) (h : mget st.users s = none) :
    (handleMessage st s msg env now).emits
      = [⟨deliverTarget (effRoom st s msg), "message",
          .msg s "Anonymous" msg.text now (effRoom st s msg)⟩] := by
  simp [handleMessage, h]

/-- C10 witness: on the fresh initial state (no `join` ever processed),
socket `sock1`'s message is delivered to everyone as "Anonymous" with
id `sock1` attached. -/
theorem unregistered_sender_message_delivered_witness :
    (handleMessage initState "sock1" ⟨"hi", none⟩ ⟨false, true⟩ 5).emits
      = [⟨.all, "message", .msg "sock1" "Anonymous" "hi" 5 none⟩] := by
  have h := unregistered_sender_message_delivered initState "sock1"
    ⟨"hi", none⟩ ⟨false, true⟩ 5 rfl
  simpa using h

/-- C2 (amended): the server never rejects an offer as busy.  The
`webrtc:offer` handler reads no session state: it changes nothing,
emits identically on every server state, and only ever emits the
relayed `webrtc:offer` (never `call:busy`).  A `call:busy` emission
occurs only when the target client itself sends a `call:busy` event,
which the server relays to the addressee. -/
theorem offer_relayed_unconditionally (st st' : ServerState) (s : String)
    (p : OfferPayload) (t : String) :
    (handleWebrtcOffer st s p).state = st
    ∧ (handleWebrtcOffer st s p).emits = (handleWebrtcOffer st' s p).emits
    ∧ ((handleWebrtcOffer st s p).emits.all
        (fun e => e.event == "webrtc:offer")) = true
    ∧ (handleCallBusy st s (some t)).emits
      = (if t = "" then [] else [⟨.room t, "call:busy", .busy s⟩]) := by
  refine ⟨rfl, rfl, ?_, rfl⟩
  rcases p with ⟨pto, sdp, media, cid⟩
  rcases pto with _ | t2
  · rfl
  · by_cases ht : t2 = "" <;> simp [handleWebrtcOffer, ht]

/-- C2 counterexample: socket `B` is already an active participant of
call `c1`, yet an offer from `D` for a new call `c2` is still relayed
to `B`, no `call:busy` is sent to `D`, and the session state is
untouched — the claim's busy rejection does not happen. -/
theorem offer_to_busy_target_relayed_counterexample :
    (handleWebrtcOffer
        { initState with
          activeCalls := [("c1", ⟨none, .video, ["A", "B"], 0, "A"⟩)] }
        "D" ⟨some "B", "sdp-offer", some .video, some "c2"⟩).emits
      = [⟨.room "B", "webrtc:offer",
          .offer "D" "sdp-offer" (some .video) (some "c2")⟩]
    ∧ (handleWebrtcOffer
        { initState with
          activeCalls := [("c1", ⟨none, .video, ["A", "B"], 0, "A"⟩)] }
        "D" ⟨some "B", "sdp-offer", some .video, some "c2"⟩).state
      = { initState with
          activeCalls := [("c1", ⟨none, .video, ["A", "B"], 0, "A"⟩)] } := by
  constructor <;> rfl

/-- C8 (amended): `GET /calls` performs no authentication at all — it
is registered without the `requireAuth()` middleware, never inspects
the request, and returns status 200 with the whole in-memory call log
for any (or no) bearer token. -/
theorem getCalls_ignores_auth (st : ServerState) (a a' : Option String) :
    getCallsRoute st a = getCallsRoute st a'
    ∧ (getCallsRoute st a).status = 200
    ∧ (getCallsRoute st a).logs = st.callLogs :=
  ⟨rfl, rfl, rfl⟩

/-- C8 counterexample: a request with no bearer token at all receives
status 200 together with the call log — not a 401 unauthorized
rejection as the claim requires. -/
theorem getCalls_unauthenticated_counterexample :
    (getCallsRoute
        { initState with
          callLogs := [⟨"c1", none, .video, 0, some 10, "A", ["A", "B"]⟩] }
        none)
      = ⟨200, [⟨"c1", none, .video, 0, some 10, "A", ["A", "B"]⟩]⟩
    ∧ (200 : Nat) ≠ 401 := by
  refine ⟨rfl, by decide⟩

/-- C1 (amended): processing a `call:invite` schedules no timer of any
kind — there is no caller-side ring timeout in the server — and a fresh
`callId` merely appends an open log entry (null `endedAt`) and an empty
session to the active set.  Nothing ever transitions a session to a
"missed" outcome: such an outcome field does not even exist on the log
entries, and absent further events the session stays active and its
log entry open. -/
theorem invite_starts_no_timer (st : ServerState) (s : String)
    (p : InvitePayload) (now : Int) (h : mget st.activeCalls p.callId = none) :
    (handleCallInvite st s p now).timers = []
    ∧ (handleCallInvite st s p now).state.callLogs
      = st.callLogs ++ [⟨p.callId, p.room, p.type, now, none, s, []⟩]
    ∧ (handleCallInvite st s p now).state.activeCalls
      = mset st.activeCalls p.callId ⟨p.room, p.type, [], now, s⟩ := by
  refine ⟨rfl, ?_, ?_⟩ <;> simp [handleCallInvite, h]

/-- C1 witness: the amended statement at the 1:1 video invite
`callId = "c1"` from `A` to `B` on the fresh initial state. -/
theorem invite_starts_no_timer_witness :
    (handleCallInvite initState "A" ⟨"c1", none, .video, some "B"⟩ 0).timers = []
    ∧ (handleCallInvite initState "A" ⟨"c1", none, .video, some "B"⟩ 0).state.callLogs
      = initState.callLogs ++ [⟨"c1", none, .video, 0, none, "A", []⟩]
    ∧ (handleCallInvite initState "A" ⟨"c1", none, .video, some "B"⟩ 0).state.activeCalls
      = mset initState.activeCalls "c1" ⟨none, .video, [], 0, "A"⟩ :=
  invite_starts_no_timer initState "A" ⟨"c1", none, .video, some "B"⟩ 0 rfl

/-- C1 counterexample: connection `A` invites `B` to a 1:1 video call
`c1` and `B` never responds.  The invite processing starts no timeout
(the scheduled-timer list is empty), emits only the invite relay to
`B`, and leaves the log entry for `c1` with `endedAt = none`; since no
timer exists and no further event arrives, the claimed transition to a
"missed" finalization with a non-null end time never happens. -/
theorem invite_no_ring_timeout_counterexample :
    (handleCallInvite initState "A" ⟨"c1", none, .video, some "B"⟩ 0).timers = []
    ∧ (handleCallInvite initState "A" ⟨"c1", none, .video, some "B"⟩ 0).state.callLogs
      = [⟨"c1", none, .video, 0, none, "A", []⟩]
    ∧ (handleCallInvite initState "A" ⟨"c1", none, .video, some "B"⟩ 0).emits
      = [⟨.roomExcept "A" "B", "call:invite", .invite "c1" .video "A" none⟩] := by
  refine ⟨rfl, ?_, ?_⟩ <;> decide

/-- C9: a `call:invite` whose `callId` is already in the active set is
a pure notification: the entire server state (hence the existing
session's fields and its call-log entry) is unchanged, and every
emission is a `call:invite` notification. -/
theorem invite_existing_call_frame (st : ServerState) (s : String)
    (p : InvitePayload) (now : Int)
    (h : (mget st.activeCalls p.callId).isSome = true) :
    (handleCallInvite st s p now).state = st
    ∧ ((handleCallInvite st s p now).emits.all
        (fun e => e.event == "call:invite")) = true := by
  constructor
  · simp [handleCallInvite, h]
  · rcases p with ⟨cid, room, ty, toId⟩
    rcases toId with _ | t
    · rcases room with _ | r
      · rfl
      · by_cases hr : r = "" <;> simp [handleCallInvite, hr]
    · by_cases ht : t = ""
      · rcases room with _ | r
        · simp [handleCallInvite, ht]
        · by_cases hr : r = "" <;> simp [handleCallInvite, ht, hr]
      · simp [handleCallInvite, ht]

/-- C9 witness: re-inviting the already-active `c1` (even from a
different socket, with different room/type) changes nothing and emits
only `call:invite`. -/
theorem invite_existing_call_frame_witness :
    (handleCallInvite
        { initState with activeCalls := [("c1", ⟨none, .video, ["A"], 0, "A"⟩)] }
        "X" ⟨"c1", some "r", .audio, none⟩ 99).state
      = { initState with activeCalls := [("c1", ⟨none, .video, ["A"], 0, "A"⟩)] }
    ∧ ((handleCallInvite
        { initState with activeCalls := [("c1", ⟨none, .video, ["A"], 0, "A"⟩)] }
        "X" ⟨"c1", some "r", .audio, none⟩ 99).emits.all
        (fun e => e.event == "call:invite")) = true :=
  invite_existing_call_frame _ "X" ⟨"c1", some "r", .audio, none⟩ 99 (by decide)

/-- C3 (amended): disconnect performs no call cleanup at all — it
leaves `activeCalls` and `callLogs` untouched for every state.  A
participant leaves a session only through an explicit `call:leave`,
which — when it empties the participant set — removes the session from
the active set and stamps the first matching log entry's `endedAt`
(when still unset) with the current time. -/
theorem disconnect_no_call_cleanup (st : ServerState) (s : String)
    (cid : String) (cs : CallState) (now : Int) :
    ((handleDisconnect st s).state.activeCalls = st.activeCalls
      ∧ (handleDisconnect st s).state.callLogs = st.callLogs)
    ∧ (mget st.activeCalls cid = some cs →
        (cs.participants.erase s).isEmpty = true →
        (handleCallLeave st s cid now).state.activeCalls = mdel st.activeCalls cid
        ∧ (handleCallLeave st s cid now).state.callLogs
          = finalizeLog st.callLogs cid now) := by
  refine ⟨⟨rfl, rfl⟩, ?_⟩
  intro h he
  constructor <;> simp [handleCallLeave, h, he]

/-- C3 witness: on a state where `A` is the sole participant of `c1`
with an open log entry, an explicit `call:leave` at time 7 removes the
session and finalizes the log with `endedAt = some 7`; the theorem is
applied at that state. -/
theorem disconnect_no_call_cleanup_witness :
    ((handleCallLeave
        { initState with
          activeCalls := [("c1", ⟨none, .video, ["A"], 0, "A"⟩)]
          callLogs := [⟨"c1", none, .video, 0, none, "A", ["A"]⟩] }
        "A" "c1" 7).state.activeCalls
      = mdel [("c1", ⟨none, .video, ["A"], 0, "A"⟩)] "c1"
    ∧ (handleCallLeave
        { initState with
          activeCalls := [("c1", ⟨none, .video, ["A"], 0, "A"⟩)]
          callLogs := [⟨"c1", none, .video, 0, none, "A", ["A"]⟩] }
        "A" "c1" 7).state.callLogs
      = finalizeLog [⟨"c1", none, .video, 0, none, "A", ["A"]⟩] "c1" 7)
    ∧ finalizeLog [⟨"c1", none, .video, 0, none, "A", ["A"]⟩] "c1" 7
      = [⟨"c1", none, .video, 0, some 7, "A", ["A"]⟩] :=
  ⟨(disconnect_no_call_cleanup
      { initState with
        activeCalls := [("c1", ⟨none, .video, ["A"], 0, "A"⟩)]
        callLogs := [⟨"c1", none, .video, 0, none, "A", ["A"]⟩] }
      "A" "c1" ⟨none, .video, ["A"], 0, "A"⟩ 7).2 (by decide) (by decide),
   by decide⟩

/-- C3 counterexample: `A` is a participant of active call `c1` and
disconnects; afterwards `A` is still in `c1`'s participant set, the
session is still active, and its log entry still has a null `endedAt`
— none of the claimed cleanup happened. -/
theorem disconnect_mid_call_counterexample :
    (handleDisconnect
        { initState with
          users := [("A", ⟨"A", "Alice", none⟩)]
          activeCalls := [("c1", ⟨none, .video, ["A", "B"], 0, "A"⟩)]
          callLogs := [⟨"c1", none, .video, 0, none, "A", ["A", "B"]⟩] }
        "A").state.activeCalls
      = [("c1", ⟨none, .video, ["A", "B"], 0, "A"⟩)]
    ∧ (handleDisconnect
        { initState with
          users := [("A", ⟨"A", "Alice", none⟩)]
          activeCalls := [("c1", ⟨none, .video, ["A", "B"], 0, "A"⟩)]
          callLogs := [⟨"c1", none, .video, 0, none, "A", ["A", "B"]⟩] }
        "A").state.callLogs
      = [⟨"c1", none, .video, 0, none, "A", ["A", "B"]⟩] := by
  constructor <;> rfl

/-! ## C4 — call log growth -/

theorem idOf_inj {a b : Nat} (h : idOf a = idOf b) : a = b := by
  have h2 : List.replicate (a + 1) 'c' = List.replicate (b + 1) 'c' :=
    congrArg String.data h
  have h3 := congrArg List.length h2
  simpa using h3

theorem handleCallInvite_fresh_state (st : ServerState) (s : String)
    (p : InvitePayload) (now : Int)
    (h : mget st.activeCalls p.callId = none) :
    (handleCallInvite st s p now).state
      = { st with
          activeCalls := mset st.activeCalls p.callId
            ⟨p.room, p.type, [], now, s⟩
          callLogs := st.callLogs ++
            [⟨p.callId, p.room, p.type, now, none, s, []⟩] } := by
  simp [handleCallInvite, h]

theorem mget_inviteN_fresh : ∀ n k, n ≤ k →
    mget (inviteN n).activeCalls (idOf k) = none := by
  intro n
  induction n with
  | zero => intro k _; rfl
  | succ n ih =>
    intro k hk
    have hfresh := ih n le_rfl
    simp only [inviteN]
    rw [handleCallInvite_fresh_state _ _ _ _ hfresh]
    have hne : ¬ idOf k = idOf n := fun e => by
      have := idOf_inj e; omega
    rw [mget_mset, if_neg hne]
    exact ih k (by omega)

theorem inviteN_length : ∀ n, (inviteN n).callLogs.length = n := by
  intro n
  induction n with
  | zero => rfl
  | succ n ih =>
    have hfresh := mget_inviteN_fresh n n le_rfl
    simp only [inviteN]
    rw [handleCallInvite_fresh_state _ _ _ _ hfresh]
    simp [ih]

/-- C4 (amended): the call log is unbounded and append-only — there is
no eviction and no capacity.  Every `record` (an invite with a fresh
`callId`) grows the log by exactly one entry, and after `n` fresh
record calls the log holds exactly `n` entries, however large `n` is.
(Only the in-memory chat buffer is capped at 500; `__callLogs` is
not.) -/
theorem callLog_unbounded (n : Nat) :
    (inviteN n).callLogs.length = n
    ∧ (∀ (st : ServerState) (s : String) (p : InvitePayload) (now : Int),
        mget st.activeCalls p.callId = none →
        ((handleCallInvite st s p now).state.callLogs).length
          = st.callLogs.length + 1) := by
  refine ⟨inviteN_length n, ?_⟩
  intro st s p now h
  rw [handleCallInvite_fresh_state st s p now h]
  simp

/-- C4 witness: the amended statement applied at `n = 3` and at a
concrete fresh invite on the initial state. -/
theorem callLog_unbounded_witness :
    (inviteN 3).callLogs.length = 3
    ∧ ((handleCallInvite initState "A" ⟨"c9", none, .audio, none⟩ 2).state.callLogs).length
      = initState.callLogs.length + 1 :=
  ⟨(callLog_unbounded 3).1,
   (callLog_unbounded 3).2 initState "A" ⟨"c9", none, .audio, none⟩ 2 rfl⟩

/-- C4 counterexample: after `N = 501` record calls (the spec's example
capacity is 500) the history holds all 501 entries, not the most recent
500 — the claimed bound does not exist. -/
theorem callLog_501_counterexample :
    (inviteN 501).callLogs.length = 501 ∧ ¬ (501 ≤ 500) :=
  ⟨inviteN_length 501, by decide⟩

/-! ## C5 — single-room invariant -/

theorem mget_adapter_single {st : ServerState} {s pr : String}
    (h1 : roomsOf st s = [pr]) : mget st.adapterRooms s = some [pr] := by
  rcases e : mget st.adapterRooms s with _ | l
  · rw [roomsOf, e] at h1
    simp at h1
  · rw [roomsOf, e] at h1
    simp at h1
    rw [h1]

theorem adapterJoin_nil (m : List (String × List String)) (s r : String)
    (h0 : (mget m s).getD [] = []) : adapterJoin m s r = mset m s [r] := by
  simp [adapterJoin, h0]

theorem adapterLeave_single (m : List (String × List String)) (s pr : String)
    (hm : mget m s = some [pr]) : adapterLeave m s pr = mset m s [] := by
  simp [adapterLeave, hm]

theorem roomConsistent_set (st : ServerState) (s : String)
    (ar : List (String × List String)) (tr : Option String)
    (h : RoomConsistent st)
    (hself : (mget ar s).getD [] = tr.toList)
    (htr : tr ≠ some "")
    (hother : ∀ s', ¬ s' = s → mget ar s' = mget st.adapterRooms s') :
    RoomConsistent
      { st with adapterRooms := ar, userRooms := mset st.userRooms s tr } := by
  intro s'
  by_cases hs : s' = s
  · subst hs
    refine ⟨?_, ?_⟩
    · show (mget ar s').getD []
        = ((mget (mset st.userRooms s' tr) s').getD none).toList
      rw [mget_mset_self]
      exact hself
    · show (mget (mset st.userRooms s' tr) s').getD none ≠ some ""
      rw [mget_mset_self]
      exact htr
  · refine ⟨?_, ?_⟩
    · show (mget ar s').getD []
        = ((mget (mset st.userRooms s tr) s').getD none).toList
      rw [hother s' hs, mget_mset, if_neg hs]
      exact (h s').1
    · show (mget (mset st.userRooms s tr) s').getD none ≠ some ""
      rw [mget_mset, if_neg hs]
      exact (h s').2

theorem roomConsistent_joinRoom (st : ServerState) (s : String)
    (room : Option String) (h : RoomConsistent st) :
    RoomConsistent (handleJoinRoom st s room).state := by
  have hroom := (h s).1
  have hne := (h s).2
  rw [trackedRoom] at hroom hne
  rcases hp : (mget st.userRooms s).getD none with _ | pr
  · rw [hp] at hroom
    have h0 : (mget st.adapterRooms s).getD [] = [] := hroom
    rcases room with _ | r
    · simp only [handleJoinRoom, hp]
      exact roomConsistent_set st s st.adapterRooms none h h0 (by simp)
        (fun _ _ => rfl)
    · by_cases hr : r = ""
      · subst hr
        simp [handleJoinRoom, hp]
        exact roomConsistent_set st s st.adapterRooms none h h0 (by simp)
          (fun _ _ => rfl)
      · simp [handleJoinRoom, hp, hr]
        rw [adapterJoin_nil st.adapterRooms s r h0]
        refine roomConsistent_set st s _ (some r) h ?_ ?_ ?_
        · rw [mget_mset_self]
          rfl
        · simp [hr]
        · intro s' hs
          rw [mget_mset, if_neg hs]
  · rw [hp] at hroom
    have hpr : ¬ pr = "" := fun e => hne (by rw [hp, e])
    have hroom2 : roomsOf st s = [pr] := hroom
    have hm : mget st.adapterRooms s = some [pr] := mget_adapter_single hroom2
    rcases room with _ | r
    · simp [handleJoinRoom, hp, hpr]
      rw [adapterLeave_single st.adapterRooms s pr hm]
      exact roomConsistent_set st s (mset st.adapterRooms s []) none h
        (by rw [mget_mset_self]; rfl) (by simp)
        (fun s' hs => by rw [mget_mset, if_neg hs])
    · by_cases hr : r = ""
      · subst hr
        simp [handleJoinRoom, hp, hpr]
        rw [adapterLeave_single st.adapterRooms s pr hm]
        exact roomConsistent_set st s (mset st.adapterRooms s []) none h
          (by rw [mget_mset_self]; rfl) (by simp)
          (fun s' hs => by rw [mget_mset, if_neg hs])
      · simp [handleJoinRoom, hp, hpr, hr]
        rw [adapterLeave_single st.adapterRooms s pr hm]
        have h0' : (mget (mset st.adapterRooms s []) s).getD [] = [] := by
          rw [mget_mset_self]
          rfl
        rw [adapterJoin_nil _ s r h0']
        refine roomConsistent_set st s _ (some r) h ?_ ?_ ?_
        · rw [mget_mset_self]
          rfl
        · simp [hr]
        · intro s' hs
          rw [mget_mset, if_neg hs, mget_mset, if_neg hs]

theorem roomConsistent_leaveRoom (st : ServerState) (s : String)
    (h : RoomConsistent st) :
    RoomConsistent (handleLeaveRoom st s).state := by
  have hroom := (h s).1
  have hne := (h s).2
  rw [trackedRoom] at hroom hne
  rcases hp : (mget st.userRooms s).getD none with _ | pr
  · simp only [handleLeaveRoom, hp]
    exact h
  · rw [hp] at hroom
    have hpr : ¬ pr = "" := fun e => hne (by rw [hp, e])
    have hroom2 : roomsOf st s = [pr] := hroom
    have hm : mget st.adapterRooms s = some [pr] := mget_adapter_single hroom2
    simp [handleLeaveRoom, hp, hpr]
    rw [adapterLeave_single st.adapterRooms s pr hm]
    exact roomConsistent_set st s (mset st.adapterRooms s []) none h
      (by rw [mget_mset_self]; rfl) (by simp)
      (fun s' hs => by rw [mget_mset, if_neg hs])

theorem leaveRoom_empties (st : ServerState) (s : String)
    (h : RoomConsistent st) :
    roomsOf (handleLeaveRoom st s).state s = [] := by
  have hroom := (h s).1
  have hne := (h s).2
  rw [trackedRoom] at hroom hne
  rcases hp : (mget st.userRooms s).getD none with _ | pr
  · simp only [handleLeaveRoom, hp]
    rw [hroom, hp]
    rfl
  · rw [hp] at hroom
    have hpr : ¬ pr = "" := fun e => hne (by rw [hp, e])
    have hroom2 : roomsOf st s = [pr] := hroom
    have hm : mget st.adapterRooms s = some [pr] := mget_adapter_single hroom2
    simp [handleLeaveRoom, hp, hpr]
    rw [adapterLeave_single st.adapterRooms s pr hm]
    show (mget (mset st.adapterRooms s []) s).getD [] = []
    rw [mget_mset_self]
    rfl

theorem roomConsistent_init : RoomConsistent initState := by
  intro s
  refine ⟨rfl, ?_⟩
  show (mget ([] : List (String × Option String)) s).getD none ≠ some ""
  simp [mget]

theorem roomConsistent_ops (ops : List RoomOp) :
    ∀ st, RoomConsistent st → RoomConsistent (applyRoomOps st ops) := by
  induction ops with
  | nil => intro st h; exact h
  | cons op ops ih =>
    intro st h
    rcases op with ⟨s, r⟩ | s
    · exact ih _ (roomConsistent_joinRoom st s r h)
    · exact ih _ (roomConsistent_leaveRoom st s h)

theorem applyRoomOps_append (ops : List RoomOp) (op : RoomOp) :
    ∀ st, applyRoomOps st (ops ++ [op]) = applyRoomOp (applyRoomOps st ops) op := by
  induction ops with
  | nil => intro st; rfl
  | cons o os ih =>
    intro st
    simp only [List.cons_append, applyRoomOps]
    exact ih _

/-- C5: the single-room invariant holds.  For every sequence of
`joinRoom`/`leaveRoom` events starting from the initial state, every
socket is a member of at most one named room (`joinRoom` leaves the
previous room before joining the new one), and a trailing `leaveRoom`
leaves the socket in no room at all. -/
theorem single_room_invariant (ops : List RoomOp) (s : String) :
    (roomsOf (applyRoomOps initState ops) s).length ≤ 1
    ∧ roomsOf (applyRoomOps initState (ops ++ [RoomOp.leaveR s])) s = [] := by
  have hc := roomConsistent_ops ops initState roomConsistent_init
  constructor
  · rw [(hc s).1]
    cases trackedRoom (applyRoomOps initState ops) s <;> simp
  · rw [applyRoomOps_append]
    exact leaveRoom_empties _ s hc
